import Mathlib

/-!
Verification of the BoredomMonitor backend state core.

The repository contains a MongoDB-backed server (`src/backend/server.ts`,
first document) and two in-memory variants (the second document of
`server.ts` and `unnamed/part_000`).  All variants share one record type
`BoredomState` and three operations: a decay computation, a set-level
handler and a reset handler; the MongoDB variant additionally keeps an
in-process cache (`currentState`) next to the durable store record and
funnels every write through `updateState`.

Times are epoch milliseconds, modelled as `Int` (JavaScript `Date.now()`
returns an integral number of milliseconds).  The `level` field is a
JavaScript `number`; it is modelled as `ℚ` so that integrality of the
stored level is a provable invariant rather than a typing assumption.
`Math.floor` on a quotient of integers is `Int.fdiv`; `Math.round x` is
`⌊x + 1/2⌋`.
-/

/-- The singleton record (`interface BoredomState` in the source; the
constant `_id` key is omitted). -/
structure BoredomState where
  level : ℚ
  lastUpdateTime : Int
  boredomSpikes : Int
deriving DecidableEq, Repr

/-- Decay interval: `3600000` ms, one unit per hour (`// 1 per hour`). -/
def decayIntervalMs : Int := 3600000

/-- The decay computation shared by all variants, with the interval as a
parameter (the source hardcodes `3600000`):

```js
const timeElapsed = now - state.lastUpdateTime;
const decayAmount = Math.floor(timeElapsed / 3600000);
if (decayAmount > 0) {
    state.level = Math.max(0, state.level - decayAmount);
    state.lastUpdateTime = now;
}
```
-/
def computeDecay (intervalMs : Int) (state : BoredomState) (now : Int) :
    BoredomState :=
  let timeElapsed := now - state.lastUpdateTime
  let decayAmount := Int.fdiv timeElapsed intervalMs
  if 0 < decayAmount then
    { state with
        level := max 0 (state.level - (decayAmount : ℚ)),
        lastUpdateTime := now }
  else
    state

/-- The in-memory variants' `applyDecay` (`server.ts` second document and
`part_000`): `computeDecay` at the hardcoded one-hour interval. -/
def applyDecay (state : BoredomState) (now : Int) : BoredomState :=
  computeDecay decayIntervalMs state now

/-- Number of whole decay units elapsed at `now` (the source's
`decayAmount`). -/
def decayUnits (state : BoredomState) (now : Int) : Int :=
  Int.fdiv (now - state.lastUpdateTime) decayIntervalMs

/-- `Math.round` on a finite JavaScript number: round half toward
positive infinity, `Math.round(x) = Math.floor(x + 0.5)`. -/
def jsRound (x : ℚ) : Int := ⌊x + 1 / 2⌋

/-!
## The MongoDB-backed variant

`currentState` (the in-process cache, `null` until the initial load
completes) lives next to the durable store record.  `updateState` builds
an atomic `$set`/`$inc` patch, issues one `findOneAndUpdate`, and on
success refreshes the cache from the returned document; a thrown store
error is caught and only logged, so `updateState` never raises.
`getState` throws while the cache is `null`; handlers catch that and
answer 500.
-/

/-- The `$set`/`$inc` patch passed to `updateState` (`updates` plus
`options.incSpikes`). -/
structure UpdatePatch where
  level : Option ℚ
  lastUpdateTime : Option Int
  boredomSpikes : Option Int
  incSpikes : Option Int
deriving DecidableEq, Repr

/-- Atomic application of a patch to the stored document: `$set` fields
first, then `$inc boredomSpikes`. -/
def applyPatch (doc : BoredomState) (p : UpdatePatch) : BoredomState :=
  let d :=
    { level := p.level.getD doc.level,
      lastUpdateTime := p.lastUpdateTime.getD doc.lastUpdateTime,
      boredomSpikes := p.boredomSpikes.getD doc.boredomSpikes : BoredomState }
  match p.incSpikes with
  | some n => { d with boredomSpikes := d.boredomSpikes + n }
  | none => d

/-- `Object.keys(atomicUpdate).length === 0`: the patch carries no `$set`
field and no non-zero `$inc`. -/
def patchIsEmpty (p : UpdatePatch) : Bool :=
  p.level.isNone && p.lastUpdateTime.isNone && p.boredomSpikes.isNone &&
    p.incSpikes.getD 0 == 0

/-- One replica of the MongoDB variant: the in-process cache
(`currentState`, `none` before the initial load) and the durable store
record. -/
structure ServerModel where
  cache : Option BoredomState
  store : BoredomState
deriving DecidableEq, Repr

/-- `updateState(updates, options)`.  `writeFails` says whether the
`findOneAndUpdate` round trip throws (store unavailable / timeout); the
thrown error is caught and logged, so the function always returns.  The
returned `Bool` records whether the store was written. -/
def updateState (m : ServerModel) (writeFails : Bool) (p : UpdatePatch) :
    ServerModel × Bool :=
  match m.cache with
  | none => (m, false)
  | some _ =>
    if patchIsEmpty p then (m, false)
    else if writeFails then (m, false)
    else
      let newDoc := applyPatch m.store p
      ({ cache := some newDoc, store := newDoc }, true)

/-- The MongoDB variant's `applyDecay`: reads the cached state via
`getState` (`none` models the exception when the cache is `null`),
computes the decay, and persists it through `updateState` only when
`decayAmount > 0`. -/
def applyDecayM (m : ServerModel) (writeFails : Bool) (now : Int) :
    Option (ServerModel × Bool) :=
  match m.cache with
  | none => none
  | some state =>
    let timeElapsed := now - state.lastUpdateTime
    let decayAmount := Int.fdiv timeElapsed decayIntervalMs
    if 0 < decayAmount then
      let newLevel := max 0 (state.level - (decayAmount : ℚ))
      some (updateState m writeFails
        { level := some newLevel, lastUpdateTime := some now,
          boredomSpikes := none, incSpikes := none })
    else
      some (m, false)

/-- Body of a `GET /api/boredom` 200 response. -/
structure GetResponse where
  level : ℚ
  lastUpdateTime : Int
  boredomSpikes : Int
  timeAlone : Int
  serverTime : Int
deriving DecidableEq, Repr

/-- Outcome of `GET /api/boredom`. -/
inductive GetResult where
  | ok (r : GetResponse)
  | serverError
deriving DecidableEq, Repr

/-- Outcome of `POST /api/boredom/set` and `POST /api/boredom/reset`:
200 `{success:true,newLevel}`, 400 `{success:false,...}`, or 500. -/
inductive HttpResponse where
  | ok (newLevel : Int)
  | badRequest
  | serverError
deriving DecidableEq, Repr

/-- The fixed epoch used for `timeAlone`:
2025-10-13 11:00:00 Europe/Amsterdam (UTC+2 under summer time), i.e.
2025-10-13T09:00:00Z, in epoch milliseconds. -/
def startTime : Int := 1760346000000

/-- `GET /api/boredom` of the MongoDB variant.  `nowDecay` is the
`Date.now()` sampled inside `applyDecay`, `nowResp` the one used for
`timeAlone` and `serverTime`.  The last component records whether a
store write was performed. -/
def getHandlerM (m : ServerModel) (writeFails : Bool)
    (nowDecay nowResp : Int) : ServerModel × GetResult × Bool :=
  match applyDecayM m writeFails nowDecay with
  | none => (m, .serverError, false)
  | some (m1, wrote) =>
    match m1.cache with
    | none => (m1, .serverError, wrote)
    | some state =>
      (m1,
       .ok
         { level := state.level,
           lastUpdateTime := state.lastUpdateTime,
           boredomSpikes := state.boredomSpikes,
           timeAlone := Int.fdiv (nowResp - startTime) 1000,
           serverTime := nowResp },
       wrote)

/-- `POST /api/boredom/set` of the MongoDB variant.  `body` is the
request's `level` field: `none` when it is absent or not a number
(`typeof level !== 'number'`), `some l` when it is the finite number
`l`.  `nowDecay`/`nowSet` are the two `Date.now()` samples. -/
def setHandlerM (m : ServerModel) (writeFails : Bool) (body : Option ℚ)
    (nowDecay nowSet : Int) : ServerModel × HttpResponse × Bool :=
  match applyDecayM m writeFails nowDecay with
  | none => (m, .serverError, false)
  | some (m1, wrote1) =>
    match body with
    | none => (m1, .badRequest, wrote1)
    | some level =>
      if level < 0 ∨ 100 < level then (m1, .badRequest, wrote1)
      else
        let newLevel := jsRound level
        let r := updateState m1 writeFails
          { level := some (newLevel : ℚ), lastUpdateTime := some nowSet,
            boredomSpikes := none, incSpikes := some 1 }
        (r.1, .ok newLevel, wrote1 || r.2)

/-- `POST /api/boredom/reset` of the MongoDB variant: one unconditional
`updateState` setting level 0, spikes 0 and `lastUpdateTime := now`,
answering 200 `{success:true,newLevel:0}` (the `catch` branch is dead
because `updateState` never throws). -/
def resetHandlerM (m : ServerModel) (writeFails : Bool) (now : Int) :
    ServerModel × HttpResponse × Bool :=
  let r := updateState m writeFails
    { level := some 0, lastUpdateTime := some now,
      boredomSpikes := some 0, incSpikes := none }
  (r.1, .ok 0, r.2)

/-- `GET /api/boredom` of the in-memory variant (second document of
`server.ts`): `timeAlone` is computed from the post-decay
`state.lastUpdateTime`, not from a fixed epoch. -/
def getHandlerInMemory (state : BoredomState) (now : Int) :
    BoredomState × GetResponse :=
  let s1 := applyDecay state now
  (s1,
   { level := s1.level,
     lastUpdateTime := s1.lastUpdateTime,
     boredomSpikes := s1.boredomSpikes,
     timeAlone := Int.fdiv (now - s1.lastUpdateTime) 1000,
     serverTime := now })

/-!
## Helper lemmas
-/

theorem fdiv_pos_iff {e i : Int} (hi : 0 < i) :
    0 < Int.fdiv e i ↔ i ≤ e := by
  rcases lt_or_le e 0 with he | he
  · have hneg := Int.fdiv_neg' he hi
    omega
  · rw [Int.fdiv_eq_ediv _ (le_of_lt hi)]
    have hiff := @Int.le_ediv_iff_mul_le 1 e i hi
    rw [one_mul] at hiff
    omega

theorem decayIntervalMs_pos : (0 : Int) < decayIntervalMs := by
  norm_num [decayIntervalMs]

theorem updateState_none {m : ServerModel} (wf : Bool) (p : UpdatePatch)
    (hc : m.cache = none) : updateState m wf p = (m, false) := by
  unfold updateState
  rw [hc]

theorem updateState_fail {m : ServerModel} {c : BoredomState}
    (p : UpdatePatch) (hc : m.cache = some c) :
    updateState m true p = (m, false) := by
  unfold updateState
  rw [hc]
  by_cases h : patchIsEmpty p <;> simp [h]

theorem updateState_write {m : ServerModel} {c : BoredomState}
    {p : UpdatePatch} (hc : m.cache = some c)
    (hne : patchIsEmpty p = false) :
    updateState m false p
      = ({ cache := some (applyPatch m.store p),
           store := applyPatch m.store p }, true) := by
  unfold updateState
  rw [hc]
  simp [hne]

/-- The `$set` patch issued by the MongoDB variant's `applyDecay`. -/
def decayPatch (c : BoredomState) (now : Int) : UpdatePatch :=
  { level := some (max 0 (c.level - (decayUnits c now : ℚ))),
    lastUpdateTime := some now,
    boredomSpikes := none, incSpikes := none }

theorem decayPatch_nonempty (c : BoredomState) (now : Int) :
    patchIsEmpty (decayPatch c now) = false := by
  simp [patchIsEmpty, decayPatch]

theorem applyDecayM_noop {m : ServerModel} {c : BoredomState} (wf : Bool)
    {now : Int} (hc : m.cache = some c) (hd : decayUnits c now ≤ 0) :
    applyDecayM m wf now = some (m, false) := by
  unfold applyDecayM
  rw [hc]
  simp only [decayUnits] at hd
  simp [not_lt.mpr hd]

theorem applyDecayM_due {m : ServerModel} {c : BoredomState} (wf : Bool)
    {now : Int} (hc : m.cache = some c) (hd : 0 < decayUnits c now) :
    applyDecayM m wf now = some (updateState m wf (decayPatch c now)) := by
  unfold applyDecayM
  rw [hc]
  simp only [decayUnits] at hd
  simp [hd, decayPatch, decayUnits]

theorem applyDecayM_none {m : ServerModel} (wf : Bool) (now : Int)
    (hc : m.cache = none) : applyDecayM m wf now = none := by
  unfold applyDecayM
  rw [hc]


theorem applyDecayM_fail {m : ServerModel} {c : BoredomState} {now : Int}
    (hc : m.cache = some c) : applyDecayM m true now = some (m, false) := by
  by_cases hd : 0 < decayUnits c now
  · rw [applyDecayM_due true hc hd, updateState_fail _ hc]
  · exact applyDecayM_noop true hc (not_lt.mp hd)

theorem applyDecayM_ok {m : ServerModel} {c : BoredomState} (now : Int)
    (hc : m.cache = some c) :
    ∃ m1 w c1, applyDecayM m false now = some (m1, w)
    ∧ m1.cache = some c1
    ∧ m1.store.boredomSpikes = m.store.boredomSpikes := by
  by_cases hd : 0 < decayUnits c now
  · rw [applyDecayM_due false hc hd,
      updateState_write hc (decayPatch_nonempty c now)]
    exact ⟨_, _, _, rfl, rfl, by simp [applyPatch, decayPatch]⟩
  · rw [applyDecayM_noop false hc (not_lt.mp hd)]
    exact ⟨_, _, _, rfl, hc, rfl⟩

theorem applyDecayM_okW (wf : Bool) (now : Int) {m : ServerModel}
    {c : BoredomState} (hc : m.cache = some c) :
    ∃ m1 w c1, applyDecayM m wf now = some (m1, w)
    ∧ m1.cache = some c1
    ∧ m1.store.boredomSpikes = m.store.boredomSpikes := by
  cases wf
  · exact applyDecayM_ok now hc
  · exact ⟨m, false, c, applyDecayM_fail hc, hc, rfl⟩

/-!
## C1: the decay formula
-/

/-- C1.  With the decay interval as a parameter (the repository
instantiates it at one hour), for every state with a non-negative level
and every `now` at or after `lastUpdateTime`, the decay computation
yields `level' = max 0 (level - ⌊(now - lastUpdateTime) / interval⌋)`.
The concrete 30-minute-interval scenario of the claim is the witness
below. -/
theorem computeDecay_formula (intervalMs : Int) (state : BoredomState)
    (now : Int) (hint : 0 < intervalMs) (hlvl : 0 ≤ state.level)
    (hnow : state.lastUpdateTime ≤ now) :
    (computeDecay intervalMs state now).level
      = max 0 (state.level
          - (Int.fdiv (now - state.lastUpdateTime) intervalMs : ℚ)) := by
  unfold computeDecay
  by_cases h : 0 < Int.fdiv (now - state.lastUpdateTime) intervalMs
  · simp [h]
  · have h0 : Int.fdiv (now - state.lastUpdateTime) intervalMs = 0 :=
      le_antisymm (not_lt.mp h)
        (Int.fdiv_nonneg (by omega) (le_of_lt hint))
    simp [h, h0, hlvl]

/-- Witness for C1: the claim's concrete scenario, state
`{level:50, lastUpdateTime:T, boredomSpikes:3}` with a 30-minute
interval read at `T+95min`: 3 decay units, decayed level 47. -/
theorem computeDecay_formula_witness :
    (0 : Int) < 1800000 ∧ (0 : ℚ) ≤ 50 ∧ (0 : Int) ≤ 5700000
    ∧ (computeDecay 1800000 ⟨50, 0, 3⟩ 5700000).level
        = max 0 ((50 : ℚ) - (Int.fdiv (5700000 - 0) 1800000 : ℚ))
    ∧ Int.fdiv (5700000 - 0) 1800000 = 3
    ∧ (computeDecay 1800000 ⟨50, 0, 3⟩ 5700000).level = 47 := by
  refine ⟨by norm_num, by norm_num, by norm_num,
    computeDecay_formula 1800000 ⟨50, 0, 3⟩ 5700000 (by norm_num)
      (by norm_num) (by norm_num), by decide, ?_⟩
  simp only [computeDecay]
  norm_num [show Int.fdiv 5700000 1800000 = 3 from by decide]

/-!
## C8: decay is monotone, clamped and total
-/

/-- C8.  For every state with non-negative level and every `now`
(including `now` before `lastUpdateTime`), decay never increases the
level, the result is never negative, and a non-positive elapsed time is
a no-op. -/
theorem applyDecay_monotone (state : BoredomState) (now : Int)
    (h : 0 ≤ state.level) :
    (applyDecay state now).level ≤ state.level
    ∧ 0 ≤ (applyDecay state now).level
    ∧ (now ≤ state.lastUpdateTime → applyDecay state now = state) := by
  unfold applyDecay computeDecay
  by_cases hd : 0 < Int.fdiv (now - state.lastUpdateTime) decayIntervalMs
  · have hdq : (0 : ℚ) ≤ (Int.fdiv (now - state.lastUpdateTime)
        decayIntervalMs : ℚ) := by exact_mod_cast le_of_lt hd
    simp only [hd, if_pos]
    refine ⟨max_le h (by linarith), le_max_left _ _, ?_⟩
    intro hle
    have := (fdiv_pos_iff decayIntervalMs_pos).mp hd
    have := decayIntervalMs_pos
    omega
  · simp [hd, h]

/-- Witness for C8 at the state `{level:50, lastUpdateTime:0,
boredomSpikes:3}` read 95 minutes later. -/
theorem applyDecay_monotone_witness :
    (0 : ℚ) ≤ (50 : ℚ)
    ∧ ((applyDecay ⟨50, 0, 3⟩ 5700000).level ≤ 50
       ∧ 0 ≤ (applyDecay ⟨50, 0, 3⟩ 5700000).level
       ∧ ((5700000 : Int) ≤ 0 → applyDecay ⟨50, 0, 3⟩ 5700000 = ⟨50, 0, 3⟩)) :=
  ⟨by norm_num, applyDecay_monotone ⟨50, 0, 3⟩ 5700000 (by norm_num)⟩

/-!
## C7: when decay is persisted
-/

/-- C7.  With a working store and an initialized cache holding `c`, the
MongoDB variant's decay persists (issues a store write) iff
`decayUnits > 0` — which, the interval being one hour, happens exactly
when it also exceeds the 60-second throttle; when it persists,
`lastUpdateTime` advances to `now` unconditionally (in particular also
when the clamped level equals the old one), and when `decayUnits ≤ 0`
no store write occurs and the model is unchanged. -/
theorem decay_persistence_throttle (m : ServerModel) (c : BoredomState)
    (now : Int) (hc : m.cache = some c) :
    ∃ m1 wrote, applyDecayM m false now = some (m1, wrote)
    ∧ (wrote = true ↔
        0 < decayUnits c now ∧ 60000 < now - c.lastUpdateTime)
    ∧ (wrote = true → m1.store.lastUpdateTime = now)
    ∧ (decayUnits c now ≤ 0 → m1 = m ∧ wrote = false) := by
  by_cases hd : 0 < decayUnits c now
  · rw [applyDecayM_due false hc hd,
      updateState_write hc (decayPatch_nonempty c now)]
    have h36 : decayIntervalMs ≤ now - c.lastUpdateTime :=
      (fdiv_pos_iff decayIntervalMs_pos).mp hd
    have hval : decayIntervalMs = 3600000 := rfl
    refine ⟨_, _, rfl, ?_, ?_, ?_⟩
    · simp only [true_iff]
      exact ⟨hd, by omega⟩
    · intro _
      simp [applyPatch, decayPatch]
    · intro hcon
      omega
  · push_neg at hd
    rw [applyDecayM_noop false hc hd]
    refine ⟨m, false, rfl, ?_, ?_, fun _ => ⟨rfl, rfl⟩⟩
    · simp only [Bool.false_eq_true, false_iff, not_and]
      intro hcon
      omega
    · intro hcon
      simp at hcon


/-- Witness for C7: a record at level 0 read one hour later — the write
happens (level stays 0) and `lastUpdateTime` advances. -/
theorem decay_persistence_throttle_witness :
    (⟨some ⟨0, 0, 0⟩, ⟨0, 0, 0⟩⟩ : ServerModel).cache = some ⟨0, 0, 0⟩
    ∧ ∃ m1 wrote,
        applyDecayM ⟨some ⟨0, 0, 0⟩, ⟨0, 0, 0⟩⟩ false 3600000
          = some (m1, wrote)
        ∧ (wrote = true ↔
            0 < decayUnits ⟨0, 0, 0⟩ 3600000
            ∧ 60000 < 3600000 - (⟨0, 0, 0⟩ : BoredomState).lastUpdateTime)
        ∧ (wrote = true → m1.store.lastUpdateTime = 3600000)
        ∧ (decayUnits ⟨0, 0, 0⟩ 3600000 ≤ 0 →
            m1 = ⟨some ⟨0, 0, 0⟩, ⟨0, 0, 0⟩⟩ ∧ wrote = false) :=
  ⟨rfl, decay_persistence_throttle ⟨some ⟨0, 0, 0⟩, ⟨0, 0, 0⟩⟩ ⟨0, 0, 0⟩
    3600000 rfl⟩

/-!
## C5: the spike counter
-/

/-- C5.  With an initialized cache: a successful `setLevel` increments
the stored `boredomSpikes` by exactly one; a `GET` (decay-only read,
whether or not decay persists, and whether or not the store is up)
leaves it unchanged; `reset` sets it to 0 or (on a failed write) leaves
the record unchanged — no operation other than `setLevel` increments
it. -/
theorem boredomSpikes_counter (m : ServerModel) (c : BoredomState)
    (l : ℚ) (wf : Bool) (nd ns ng nr now : Int) (hc : m.cache = some c)
    (h0 : 0 ≤ l) (h1 : l ≤ 100) :
    (setHandlerM m false (some l) nd ns).1.store.boredomSpikes
        = m.store.boredomSpikes + 1
    ∧ (getHandlerM m wf ng nr).1.store.boredomSpikes
        = m.store.boredomSpikes
    ∧ ((resetHandlerM m wf now).1.store.boredomSpikes = 0
        ∨ (resetHandlerM m wf now).1.store = m.store) := by
  have hcond : ¬(l < 0 ∨ 100 < l) := by
    push_neg
    exact ⟨h0, h1⟩
  obtain ⟨m1, w, c1, hA, hc1, hsp⟩ := applyDecayM_ok nd hc
  refine ⟨?_, ?_, ?_⟩
  · have hpe : patchIsEmpty
        { level := some ((jsRound l : Int) : ℚ), lastUpdateTime := some ns,
          boredomSpikes := none, incSpikes := some 1 } = false := by
      simp [patchIsEmpty]
    simp only [setHandlerM, hA]
    rw [if_neg hcond]
    rw [updateState_write hc1 hpe]
    simp [applyPatch, hsp]
  · cases wf
    · obtain ⟨m1g, wg, c1g, hAg, hc1g, hspg⟩ := applyDecayM_ok ng hc
      simp only [getHandlerM, hAg, hc1g]
      exact hspg
    · simp only [getHandlerM, applyDecayM_fail hc, hc]
  · have hpe : patchIsEmpty
        { level := some (0 : ℚ), lastUpdateTime := some now,
          boredomSpikes := some 0, incSpikes := none } = false := by
      simp [patchIsEmpty]
    cases wf
    · left
      rw [resetHandlerM, updateState_write hc hpe]
      simp [applyPatch]
    · right
      rw [resetHandlerM, updateState_fail _ hc]

/-- Witness for C5 at a concrete model, request level 70. -/
theorem boredomSpikes_counter_witness :
    (⟨some ⟨50, 0, 3⟩, ⟨50, 0, 3⟩⟩ : ServerModel).cache = some ⟨50, 0, 3⟩
    ∧ (0 : ℚ) ≤ 70 ∧ (70 : ℚ) ≤ 100
    ∧ ((setHandlerM ⟨some ⟨50, 0, 3⟩, ⟨50, 0, 3⟩⟩ false (some 70) 1000
          1000).1.store.boredomSpikes
        = (⟨some ⟨50, 0, 3⟩, ⟨50, 0, 3⟩⟩ : ServerModel).store.boredomSpikes + 1
       ∧ (getHandlerM ⟨some ⟨50, 0, 3⟩, ⟨50, 0, 3⟩⟩ false 1000
            1000).1.store.boredomSpikes
          = (⟨some ⟨50, 0, 3⟩, ⟨50, 0, 3⟩⟩ : ServerModel).store.boredomSpikes
       ∧ ((resetHandlerM ⟨some ⟨50, 0, 3⟩, ⟨50, 0, 3⟩⟩ false
              1000).1.store.boredomSpikes = 0
          ∨ (resetHandlerM ⟨some ⟨50, 0, 3⟩, ⟨50, 0, 3⟩⟩ false
              1000).1.store
            = (⟨some ⟨50, 0, 3⟩, ⟨50, 0, 3⟩⟩ : ServerModel).store)) :=
  ⟨rfl, by norm_num, by norm_num,
    boredomSpikes_counter ⟨some ⟨50, 0, 3⟩, ⟨50, 0, 3⟩⟩ ⟨50, 0, 3⟩ 70 false
      1000 1000 1000 1000 1000 rfl (by norm_num) (by norm_num)⟩

/-!
## C6: reset is unconditional
-/

/-- C6.  With an initialized cache and a working store, `reset` performs
one atomic update leaving the record `{level:0, boredomSpikes:0,
lastUpdateTime:now}` in the store and the cache, and — for every store
outcome — answers 200 `{success:true,newLevel:0}`: there is no
validation and no `InvalidArgument` failure. -/
theorem reset_unconditional (m : ServerModel) (c : BoredomState)
    (now : Int) (hc : m.cache = some c) :
    (resetHandlerM m false now).1.store = ⟨0, now, 0⟩
    ∧ (resetHandlerM m false now).1.cache = some ⟨0, now, 0⟩
    ∧ (resetHandlerM m false now).2.2 = true
    ∧ ∀ wf : Bool, (resetHandlerM m wf now).2.1 = .ok 0 := by
  have hpe : patchIsEmpty
      { level := some (0 : ℚ), lastUpdateTime := some now,
        boredomSpikes := some 0, incSpikes := none } = false := by
    simp [patchIsEmpty]
  refine ⟨?_, ?_, ?_, fun wf => rfl⟩
  · rw [resetHandlerM, updateState_write hc hpe]
    simp [applyPatch]
  · rw [resetHandlerM, updateState_write hc hpe]
    simp [applyPatch]
  · rw [resetHandlerM, updateState_write hc hpe]

/-- Witness for C6 at a concrete model. -/
theorem reset_unconditional_witness :
    (⟨some ⟨50, 0, 3⟩, ⟨50, 0, 3⟩⟩ : ServerModel).cache = some ⟨50, 0, 3⟩
    ∧ ((resetHandlerM ⟨some ⟨50, 0, 3⟩, ⟨50, 0, 3⟩⟩ false 1000).1.store
        = ⟨0, 1000, 0⟩
       ∧ (resetHandlerM ⟨some ⟨50, 0, 3⟩, ⟨50, 0, 3⟩⟩ false 1000).1.cache
          = some ⟨0, 1000, 0⟩
       ∧ (resetHandlerM ⟨some ⟨50, 0, 3⟩, ⟨50, 0, 3⟩⟩ false 1000).2.2 = true
       ∧ ∀ wf : Bool,
          (resetHandlerM ⟨some ⟨50, 0, 3⟩, ⟨50, 0, 3⟩⟩ wf 1000).2.1
            = .ok 0) :=
  ⟨rfl, reset_unconditional ⟨some ⟨50, 0, 3⟩, ⟨50, 0, 3⟩⟩ ⟨50, 0, 3⟩ 1000 rfl⟩

/-!
## C10: requests before the initial load
-/

/-- C10.  While the in-memory state is still `null` (before the initial
load): `GET` and `POST set` answer 500 without touching the store or the
state (`getState` throws), while `POST reset` answers 200
`{success:true,newLevel:0}` although no store write and no state change
happens (`updateState` returns silently). -/
theorem uninit_requests (m : ServerModel) (body : Option ℚ) (wf : Bool)
    (nd ns ng nr now : Int) (hc : m.cache = none) :
    getHandlerM m wf ng nr = (m, .serverError, false)
    ∧ setHandlerM m wf body nd ns = (m, .serverError, false)
    ∧ resetHandlerM m wf now = (m, .ok 0, false) := by
  refine ⟨?_, ?_, ?_⟩
  · simp [getHandlerM, applyDecayM_none wf ng hc]
  · simp [setHandlerM, applyDecayM_none wf nd hc]
  · rw [resetHandlerM, updateState_none wf _ hc]

/-- Witness for C10 at a concrete uninitialized model. -/
theorem uninit_requests_witness :
    (⟨none, ⟨7, 5, 2⟩⟩ : ServerModel).cache = none
    ∧ (getHandlerM ⟨none, ⟨7, 5, 2⟩⟩ false 1000 1000
        = (⟨none, ⟨7, 5, 2⟩⟩, .serverError, false)
       ∧ setHandlerM ⟨none, ⟨7, 5, 2⟩⟩ false (some 70) 1000 1000
          = (⟨none, ⟨7, 5, 2⟩⟩, .serverError, false)
       ∧ resetHandlerM ⟨none, ⟨7, 5, 2⟩⟩ false 1000
          = (⟨none, ⟨7, 5, 2⟩⟩, .ok 0, false)) :=
  ⟨rfl, uninit_requests ⟨none, ⟨7, 5, 2⟩⟩ (some 70) false 1000 1000 1000
    1000 1000 rfl⟩

/-!
## C3: set-level validation

The claim says a 400 leaves the state unchanged; in the source,
`applyDecay` runs (and may persist) before validation, so a 400 response
can coexist with a persisted decay.  The counterexample exhibits this;
the amended theorem keeps the rest of the claim.
-/

/-- Counterexample to C3 as stated: at the state
`{level:50, lastUpdateTime:0, boredomSpikes:3}`, `setLevel(150)` issued
two hours later answers 400, yet the state has changed (the decay ran
and was persisted before validation). -/
theorem setLevel_400_changes_state :
    (setHandlerM ⟨some ⟨50, 0, 3⟩, ⟨50, 0, 3⟩⟩ false (some 150) 7200000
        7200000).2.1 = .badRequest
    ∧ (setHandlerM ⟨some ⟨50, 0, 3⟩, ⟨50, 0, 3⟩⟩ false (some 150) 7200000
        7200000).1
      ≠ ⟨some ⟨50, 0, 3⟩, ⟨50, 0, 3⟩⟩ := by
  have hd : (0 : Int) < decayUnits ⟨50, 0, 3⟩ 7200000 := by
    simp only [decayUnits, decayIntervalMs]
    norm_num [show Int.fdiv 7200000 3600000 = 2 from by decide]
  have e1 : applyDecayM ⟨some ⟨50, 0, 3⟩, ⟨50, 0, 3⟩⟩ false 7200000
      = some (⟨some ⟨48, 7200000, 3⟩, ⟨48, 7200000, 3⟩⟩, true) := by
    rw [applyDecayM_due false rfl hd,
      updateState_write rfl (decayPatch_nonempty _ _)]
    simp only [applyPatch, decayPatch, decayUnits, decayIntervalMs]
    norm_num [show Int.fdiv 7200000 3600000 = 2 from by decide]
  constructor
  · simp only [setHandlerM, e1]
    norm_num
  · simp only [setHandlerM, e1]
    norm_num

/-- C3 (amended).  With an initialized cache and a working store, the
set handler answers 400 iff the request level is not a number in
`[0,100]`; a 400 leaves the state exactly as the decay step (which runs
before validation) left it, with no set and no spike increment; a valid
level is rounded, persisted together with `lastUpdateTime` while
`boredomSpikes` is incremented, and the rounded level is returned. -/
theorem setLevel_validation (m : ServerModel) (c : BoredomState)
    (body : Option ℚ) (nd ns : Int) (hc : m.cache = some c) :
    ∃ m1 w, applyDecayM m false nd = some (m1, w)
    ∧ ((setHandlerM m false body nd ns).2.1 = .badRequest ↔
        ¬ ∃ l, body = some l ∧ 0 ≤ l ∧ l ≤ 100)
    ∧ ((setHandlerM m false body nd ns).2.1 = .badRequest →
        (setHandlerM m false body nd ns).1 = m1)
    ∧ (∀ l, body = some l → 0 ≤ l → l ≤ 100 →
        (setHandlerM m false body nd ns).2.1 = .ok (jsRound l)
        ∧ (setHandlerM m false body nd ns).1.store
            = ⟨((jsRound l : Int) : ℚ), ns, m1.store.boredomSpikes + 1⟩
        ∧ (setHandlerM m false body nd ns).1.cache
            = some (⟨((jsRound l : Int) : ℚ), ns,
                m1.store.boredomSpikes + 1⟩ : BoredomState)) := by
  obtain ⟨m1, w, c1, hA, hc1, hsp⟩ := applyDecayM_ok nd hc
  refine ⟨m1, w, hA, ?_⟩
  cases body with
  | none =>
    have hred : setHandlerM m false none nd ns = (m1, .badRequest, w) := by
      simp only [setHandlerM, hA]
    refine ⟨?_, ?_, ?_⟩
    · rw [hred]
      simp
    · intro _
      rw [hred]
    · intro l hl
      cases hl
  | some l =>
    by_cases hv : l < 0 ∨ 100 < l
    · have hred : setHandlerM m false (some l) nd ns
          = (m1, .badRequest, w) := by
        simp only [setHandlerM, hA]
        rw [if_pos hv]
      refine ⟨?_, ?_, ?_⟩
      · rw [hred]
        simp only [true_iff]
        rintro ⟨l', hl', h0, h1⟩
        injection hl' with hll
        subst hll
        rcases hv with hv | hv <;> linarith
      · intro _
        rw [hred]
      · intro l' hl' h0 h1
        injection hl' with hll
        subst hll
        exfalso
        rcases hv with hv | hv <;> linarith
    · push_neg at hv
      have hpe : patchIsEmpty
          { level := some ((jsRound l : Int) : ℚ),
            lastUpdateTime := some ns,
            boredomSpikes := none, incSpikes := some 1 } = false := by
        simp [patchIsEmpty]
      have hap : applyPatch m1.store
          { level := some ((jsRound l : Int) : ℚ),
            lastUpdateTime := some ns,
            boredomSpikes := none, incSpikes := some 1 }
          = ⟨((jsRound l : Int) : ℚ), ns, m1.store.boredomSpikes + 1⟩ := by
        simp [applyPatch]
      have hred : setHandlerM m false (some l) nd ns
          = (⟨some ⟨((jsRound l : Int) : ℚ), ns,
                m1.store.boredomSpikes + 1⟩,
              ⟨((jsRound l : Int) : ℚ), ns,
                m1.store.boredomSpikes + 1⟩⟩,
             .ok (jsRound l), w || true) := by
        simp only [setHandlerM, hA]
        rw [if_neg (by push_neg; exact hv), updateState_write hc1 hpe, hap]
      refine ⟨?_, ?_, ?_⟩
      · rw [hred]
        constructor
        · intro h
          exact absurd h (by simp)
        · intro hno
          exact absurd ⟨l, rfl, hv.1, hv.2⟩ hno
      · intro h
        rw [hred] at h
        exact absurd h (by simp)
      · intro l' hl' h0 h1
        injection hl' with hll
        subst hll
        rw [hred]
        exact ⟨rfl, rfl, rfl⟩

/-- Witness for C3 (amended): the claim's scenario `setLevel(150)` with
no elapsed time — 400 and the state really is unchanged. -/
theorem setLevel_validation_witness :
    (⟨some ⟨50, 0, 3⟩, ⟨50, 0, 3⟩⟩ : ServerModel).cache = some ⟨50, 0, 3⟩
    ∧ ∃ m1 w,
        applyDecayM ⟨some ⟨50, 0, 3⟩, ⟨50, 0, 3⟩⟩ false 1000 = some (m1, w)
        ∧ ((setHandlerM ⟨some ⟨50, 0, 3⟩, ⟨50, 0, 3⟩⟩ false (some 150) 1000
              1000).2.1 = .badRequest ↔
            ¬ ∃ l, (some (150 : ℚ)) = some l ∧ 0 ≤ l ∧ l ≤ 100)
        ∧ ((setHandlerM ⟨some ⟨50, 0, 3⟩, ⟨50, 0, 3⟩⟩ false (some 150) 1000
              1000).2.1 = .badRequest →
            (setHandlerM ⟨some ⟨50, 0, 3⟩, ⟨50, 0, 3⟩⟩ false (some 150) 1000
              1000).1 = m1)
        ∧ (∀ l, (some (150 : ℚ)) = some l → 0 ≤ l → l ≤ 100 →
            (setHandlerM ⟨some ⟨50, 0, 3⟩, ⟨50, 0, 3⟩⟩ false (some 150) 1000
              1000).2.1 = .ok (jsRound l)
            ∧ (setHandlerM ⟨some ⟨50, 0, 3⟩, ⟨50, 0, 3⟩⟩ false (some 150)
                1000 1000).1.store
              = ⟨((jsRound l : Int) : ℚ), 1000, m1.store.boredomSpikes + 1⟩
            ∧ (setHandlerM ⟨some ⟨50, 0, 3⟩, ⟨50, 0, 3⟩⟩ false (some 150)
                1000 1000).1.cache
              = some (⟨((jsRound l : Int) : ℚ), 1000,
                  m1.store.boredomSpikes + 1⟩ : BoredomState)) :=
  ⟨rfl, setLevel_validation ⟨some ⟨50, 0, 3⟩, ⟨50, 0, 3⟩⟩ ⟨50, 0, 3⟩
    (some 150) 1000 1000 rfl⟩

/-!
## C4: store write failure

The claim says a failed store write yields a 500 and invalidates the
cache.  In the source, `updateState` catches the error and only logs it:
the handler's `catch` never fires, the response is 200, and the cache
keeps its previous value (reads consult only the cache, so the stale
value keeps being served).
-/

/-- Counterexample to C4 as stated: with the store write failing,
`setLevel(70)` still answers 200 `{success:true,newLevel:70}` — not
500 — and the cache still holds the old state rather than being
invalidated. -/
theorem write_failure_not_500 :
    (setHandlerM ⟨some ⟨50, 0, 3⟩, ⟨50, 0, 3⟩⟩ true (some 70) 1000
        1000).2.1 = .ok 70
    ∧ (setHandlerM ⟨some ⟨50, 0, 3⟩, ⟨50, 0, 3⟩⟩ true (some 70) 1000
        1000).2.1 ≠ .serverError
    ∧ (setHandlerM ⟨some ⟨50, 0, 3⟩, ⟨50, 0, 3⟩⟩ true (some 70) 1000
        1000).1.cache = some ⟨50, 0, 3⟩ := by
  have hcc : (⟨some ⟨50, 0, 3⟩, ⟨50, 0, 3⟩⟩ : ServerModel).cache
      = some ⟨50, 0, 3⟩ := rfl
  have hred : setHandlerM ⟨some ⟨50, 0, 3⟩, ⟨50, 0, 3⟩⟩ true (some 70) 1000
      1000 = (⟨some ⟨50, 0, 3⟩, ⟨50, 0, 3⟩⟩, .ok (jsRound 70),
        false || false) := by
    simp only [setHandlerM, applyDecayM_fail hcc]
    rw [if_neg (by norm_num), updateState_fail _ hcc]
  have hj : jsRound 70 = 70 := by
    norm_num [jsRound]
  rw [hred, hj]
  exact ⟨rfl, by simp, rfl⟩

/-- C4 (amended).  With an initialized cache, when the store write
fails, `updateState` swallows the error: `setLevel` of a valid level
still answers 200 with the rounded level, the model (cache included) is
left exactly as before with no store write, and `reset` likewise answers
200 `{success:true,newLevel:0}` with nothing written. -/
theorem write_failure_swallowed (m : ServerModel) (c : BoredomState)
    (l : ℚ) (nd ns now : Int) (hc : m.cache = some c)
    (h0 : 0 ≤ l) (h1 : l ≤ 100) :
    (setHandlerM m true (some l) nd ns).2.1 = .ok (jsRound l)
    ∧ (setHandlerM m true (some l) nd ns).1 = m
    ∧ (setHandlerM m true (some l) nd ns).2.2 = false
    ∧ resetHandlerM m true now = (m, .ok 0, false) := by
  have hred : setHandlerM m true (some l) nd ns
      = (m, .ok (jsRound l), false || false) := by
    simp only [setHandlerM, applyDecayM_fail hc]
    rw [if_neg (by push_neg; exact ⟨h0, h1⟩), updateState_fail _ hc]
  rw [hred]
  refine ⟨rfl, rfl, rfl, ?_⟩
  rw [resetHandlerM, updateState_fail _ hc]

/-- Witness for C4 (amended) at a concrete model and request. -/
theorem write_failure_swallowed_witness :
    (⟨some ⟨20, 0, 1⟩, ⟨20, 0, 1⟩⟩ : ServerModel).cache = some ⟨20, 0, 1⟩
    ∧ (0 : ℚ) ≤ 30 ∧ (30 : ℚ) ≤ 100
    ∧ ((setHandlerM ⟨some ⟨20, 0, 1⟩, ⟨20, 0, 1⟩⟩ true (some 30) 1000
          1000).2.1 = .ok (jsRound 30)
       ∧ (setHandlerM ⟨some ⟨20, 0, 1⟩, ⟨20, 0, 1⟩⟩ true (some 30) 1000
          1000).1 = ⟨some ⟨20, 0, 1⟩, ⟨20, 0, 1⟩⟩
       ∧ (setHandlerM ⟨some ⟨20, 0, 1⟩, ⟨20, 0, 1⟩⟩ true (some 30) 1000
          1000).2.2 = false
       ∧ resetHandlerM ⟨some ⟨20, 0, 1⟩, ⟨20, 0, 1⟩⟩ true 1000
          = (⟨some ⟨20, 0, 1⟩, ⟨20, 0, 1⟩⟩, .ok 0, false)) :=
  ⟨rfl, by norm_num, by norm_num,
    write_failure_swallowed ⟨some ⟨20, 0, 1⟩, ⟨20, 0, 1⟩⟩ ⟨20, 0, 1⟩ 30
      1000 1000 1000 rfl (by norm_num) (by norm_num)⟩

/-!
## C9: the timeAlone field

In the MongoDB variant (and in `part_000`) `timeAlone` is derived from
the fixed epoch `startTime` only; but the in-memory variant cited by the
claim computes it from `state.lastUpdateTime`, so the claim fails over
all cited `GET` handlers.
-/

/-- Counterexample to C9 as stated: in the in-memory variant, two states
differing only in `lastUpdateTime` produce different `timeAlone` values
at the same instant, and neither equals the fixed-epoch-based value. -/
theorem timeAlone_depends_on_state :
    (getHandlerInMemory ⟨0, 0, 0⟩ 10000).2.timeAlone = 10
    ∧ (getHandlerInMemory ⟨0, 5000, 0⟩ 10000).2.timeAlone = 5
    ∧ (getHandlerInMemory ⟨0, 0, 0⟩ 10000).2.timeAlone
        ≠ (getHandlerInMemory ⟨0, 5000, 0⟩ 10000).2.timeAlone
    ∧ (getHandlerInMemory ⟨0, 0, 0⟩ 10000).2.timeAlone
        ≠ Int.fdiv (10000 - startTime) 1000 := by
  have h1 : applyDecay ⟨0, 0, 0⟩ 10000 = ⟨0, 0, 0⟩ := by
    simp only [applyDecay, computeDecay, decayIntervalMs]
    norm_num [show Int.fdiv 10000 3600000 = 0 from by decide]
  have h2 : applyDecay ⟨0, 5000, 0⟩ 10000 = ⟨0, 5000, 0⟩ := by
    simp only [applyDecay, computeDecay, decayIntervalMs]
    norm_num [show Int.fdiv 5000 3600000 = 0 from by decide]
  have e1 : (getHandlerInMemory ⟨0, 0, 0⟩ 10000).2.timeAlone = 10 := by
    simp only [getHandlerInMemory, h1]
    norm_num [show Int.fdiv 10000 1000 = 10 from by decide]
  have e2 : (getHandlerInMemory ⟨0, 5000, 0⟩ 10000).2.timeAlone = 5 := by
    simp only [getHandlerInMemory, h2]
    norm_num [show Int.fdiv 5000 1000 = 5 from by decide]
  refine ⟨e1, e2, by rw [e1, e2]; norm_num, ?_⟩
  rw [e1]
  norm_num [startTime,
    show Int.fdiv (-1760345990000) 1000 = -1760345990 from by decide]

/-- C9 (amended).  In the MongoDB variant, every 200 `GET` response
carries `timeAlone = ⌊(now - startTime)/1000⌋`, a function of the server
clock and the fixed epoch only — independent of the state and in
particular of `lastUpdateTime`; the in-memory variant instead derives
`timeAlone` from `lastUpdateTime` (see the counterexample). -/
theorem timeAlone_fixed_epoch (m m1 : ServerModel) (wf w : Bool)
    (nd nr : Int) (r : GetResponse)
    (h : getHandlerM m wf nd nr = (m1, .ok r, w)) :
    r.timeAlone = Int.fdiv (nr - startTime) 1000 := by
  cases hcm : m.cache with
  | none =>
    simp only [getHandlerM, applyDecayM_none wf nd hcm] at h
    simp at h
  | some c =>
    obtain ⟨m2, w2, c2, hA, hc2, -⟩ := applyDecayM_okW wf nd hcm
    simp only [getHandlerM, hA, hc2] at h
    simp only [Prod.mk.injEq, GetResult.ok.injEq] at h
    obtain ⟨-, hr, -⟩ := h
    rw [← hr]

/-- Witness for C9 (amended): a concrete `GET` five seconds after the
fixed epoch. -/
theorem timeAlone_fixed_epoch_witness :
    getHandlerM ⟨some ⟨50, 0, 3⟩, ⟨50, 0, 3⟩⟩ false 1000 1760346005000
      = (⟨some ⟨50, 0, 3⟩, ⟨50, 0, 3⟩⟩,
         .ok ⟨50, 0, 3, Int.fdiv (1760346005000 - startTime) 1000,
           1760346005000⟩, false)
    ∧ (⟨50, 0, 3, Int.fdiv (1760346005000 - startTime) 1000,
         1760346005000⟩ : GetResponse).timeAlone
        = Int.fdiv (1760346005000 - startTime) 1000 := by
  have hcc : (⟨some ⟨50, 0, 3⟩, ⟨50, 0, 3⟩⟩ : ServerModel).cache
      = some ⟨50, 0, 3⟩ := rfl
  have hd : decayUnits (⟨50, 0, 3⟩ : BoredomState) 1000 ≤ 0 := by decide
  have hred : getHandlerM ⟨some ⟨50, 0, 3⟩, ⟨50, 0, 3⟩⟩ false 1000
      1760346005000
      = (⟨some ⟨50, 0, 3⟩, ⟨50, 0, 3⟩⟩,
         .ok ⟨50, 0, 3, Int.fdiv (1760346005000 - startTime) 1000,
           1760346005000⟩, false) := by
    simp only [getHandlerM, applyDecayM_noop false hcc hd]
  exact ⟨hred,
    timeAlone_fixed_epoch ⟨some ⟨50, 0, 3⟩, ⟨50, 0, 3⟩⟩
      ⟨some ⟨50, 0, 3⟩, ⟨50, 0, 3⟩⟩ false false 1000 1760346005000
      ⟨50, 0, 3, Int.fdiv (1760346005000 - startTime) 1000, 1760346005000⟩
      hred⟩

/-!
## C2: the level invariant

`LevelOK` is the invariant claimed for the record: the level is an
integer (the model carries levels as `ℚ`, so integrality is a real
obligation) within `[0,100]`.  It is established for every model
reachable from the boot state by any sequence of requests.
-/

/-- The level of a record is an integer between 0 and 100. -/
def LevelOK (s : BoredomState) : Prop :=
  (∃ n : ℤ, s.level = (n : ℚ)) ∧ 0 ≤ s.level ∧ s.level ≤ 100

/-- Both the durable record and the cached copy (when present) satisfy
`LevelOK`. -/
def ModelOK (m : ServerModel) : Prop :=
  LevelOK m.store ∧ ∀ c, m.cache = some c → LevelOK c

theorem jsRound_mem {l : ℚ} (h0 : 0 ≤ l) (h1 : l ≤ 100) :
    0 ≤ jsRound l ∧ jsRound l ≤ 100 := by
  unfold jsRound
  constructor
  · rw [Int.le_floor]
    push_cast
    linarith
  · calc ⌊l + 1 / 2⌋ ≤ ⌊(201 : ℚ) / 2⌋ := Int.floor_le_floor (by linarith)
      _ = 100 := by norm_num

theorem modelOK_updateState (m : ServerModel) (wf : Bool) (p : UpdatePatch)
    (hm : ModelOK m)
    (hp : ∀ doc, LevelOK doc → LevelOK (applyPatch doc p)) :
    ModelOK (updateState m wf p).1 := by
  cases hc : m.cache with
  | none =>
    rw [updateState_none wf p hc]
    exact hm
  | some c =>
    by_cases hpe : patchIsEmpty p = true
    · have hred : updateState m wf p = (m, false) := by
        unfold updateState
        rw [hc]
        simp [hpe]
      rw [hred]
      exact hm
    · have hpe' : patchIsEmpty p = false := by
        simp only [Bool.not_eq_true] at hpe
        exact hpe
      cases wf
      · rw [updateState_write hc hpe']
        refine ⟨hp _ hm.1, ?_⟩
        intro c' hc'
        simp only [Option.some.injEq] at hc'
        rw [← hc']
        exact hp _ hm.1
      · rw [updateState_fail p hc]
        exact hm

theorem levelOK_decayPatch {c : BoredomState} {now : Int}
    (hcap : LevelOK c) (hd : 0 < decayUnits c now) :
    ∀ doc, LevelOK doc → LevelOK (applyPatch doc (decayPatch c now)) := by
  intro doc _
  obtain ⟨⟨n, hn⟩, h0, h1⟩ := hcap
  have hdq : (1 : ℚ) ≤ (decayUnits c now : ℚ) := by
    exact_mod_cast hd
  refine ⟨⟨max 0 (n - decayUnits c now), ?_⟩, ?_, ?_⟩
  · simp only [applyPatch, decayPatch, Option.getD_some]
    rw [hn]
    push_cast
    rfl
  · simp only [applyPatch, decayPatch, Option.getD_some]
    exact le_max_left _ _
  · simp only [applyPatch, decayPatch, Option.getD_some]
    exact max_le (by norm_num) (by linarith)

theorem levelOK_setPatch {v : Int} (ns : Int) (h0 : 0 ≤ v)
    (h1 : v ≤ 100) :
    ∀ doc, LevelOK doc → LevelOK (applyPatch doc
      ⟨some ((v : Int) : ℚ), some ns, none, some 1⟩) := by
  intro doc _
  refine ⟨⟨v, by simp [applyPatch]⟩, ?_, ?_⟩
  · have hq : ((0 : ℤ) : ℚ) ≤ (v : ℚ) := by exact_mod_cast h0
    simpa [applyPatch] using hq
  · have hq : (v : ℚ) ≤ ((100 : ℤ) : ℚ) := by exact_mod_cast h1
    simpa [applyPatch] using hq

theorem levelOK_resetPatch (now : Int) :
    ∀ doc, LevelOK doc → LevelOK (applyPatch doc
      ⟨some (0 : ℚ), some now, some 0, none⟩) := by
  intro doc _
  refine ⟨⟨0, by simp [applyPatch]⟩, by simp [applyPatch], ?_⟩
  norm_num [applyPatch]

theorem modelOK_decay {m m1 : ServerModel} {wf : Bool} {now : Int}
    {w : Bool} (hA : applyDecayM m wf now = some (m1, w))
    (hm : ModelOK m) : ModelOK m1 := by
  cases hc : m.cache with
  | none =>
    rw [applyDecayM_none wf now hc] at hA
    cases hA
  | some c =>
    by_cases hd : 0 < decayUnits c now
    · rw [applyDecayM_due wf hc hd] at hA
      injection hA with hA
      have hOK := modelOK_updateState m wf (decayPatch c now) hm
        (levelOK_decayPatch (hm.2 c hc) hd)
      rw [hA] at hOK
      exact hOK
    · rw [applyDecayM_noop wf hc (not_lt.mp hd)] at hA
      injection hA with hA
      injection hA with h1 h2
      rw [← h1]
      exact hm

theorem modelOK_get (m : ServerModel) (wf : Bool) (nd nr : Int)
    (hm : ModelOK m) : ModelOK (getHandlerM m wf nd nr).1 := by
  cases hc : m.cache with
  | none =>
    simp only [getHandlerM, applyDecayM_none wf nd hc]
    exact hm
  | some c =>
    obtain ⟨m1, w, c1, hA, hc1, -⟩ := applyDecayM_okW wf nd hc
    simp only [getHandlerM, hA, hc1]
    exact modelOK_decay hA hm

theorem modelOK_set (m : ServerModel) (wf : Bool) (body : Option ℚ)
    (nd ns : Int) (hm : ModelOK m) :
    ModelOK (setHandlerM m wf body nd ns).1 := by
  cases hc : m.cache with
  | none =>
    simp only [setHandlerM, applyDecayM_none wf nd hc]
    exact hm
  | some c =>
    obtain ⟨m1, w, c1, hA, hc1, -⟩ := applyDecayM_okW wf nd hc
    have hm1 : ModelOK m1 := modelOK_decay hA hm
    cases body with
    | none =>
      simp only [setHandlerM, hA]
      exact hm1
    | some l =>
      by_cases hv : l < 0 ∨ 100 < l
      · simp only [setHandlerM, hA]
        rw [if_pos hv]
        exact hm1
      · push_neg at hv
        simp only [setHandlerM, hA]
        rw [if_neg (by push_neg; exact hv)]
        have hj := jsRound_mem hv.1 hv.2
        exact modelOK_updateState m1 wf _ hm1 (levelOK_setPatch ns hj.1 hj.2)

theorem modelOK_reset (m : ServerModel) (wf : Bool) (now : Int)
    (hm : ModelOK m) : ModelOK (resetHandlerM m wf now).1 := by
  simp only [resetHandlerM]
  exact modelOK_updateState m wf _ hm (levelOK_resetPatch now)

/-- Reachability of a server model: boot with the default record
(`level:0, boredomSpikes:0`), then any sequence of `GET` (decay-only
read), `setLevel` and `reset` requests, with arbitrary bodies, clock
values and store outcomes. -/
inductive Reachable : ServerModel → Prop where
  | boot (t : Int) : Reachable ⟨some ⟨0, t, 0⟩, ⟨0, t, 0⟩⟩
  | getStep (m : ServerModel) (wf : Bool) (nd nr : Int) :
      Reachable m → Reachable (getHandlerM m wf nd nr).1
  | setStep (m : ServerModel) (wf : Bool) (body : Option ℚ) (nd ns : Int) :
      Reachable m → Reachable (setHandlerM m wf body nd ns).1
  | resetStep (m : ServerModel) (wf : Bool) (now : Int) :
      Reachable m → Reachable (resetHandlerM m wf now).1

/-- C2.  In every reachable model — after creation with defaults and any
sequence of decay reads, `setLevel` and `reset` operations — the stored
level, and the cached level when a cache entry exists, is an integer
with `0 ≤ level ≤ 100`. -/
theorem reachable_level_in_range (m : ServerModel) (h : Reachable m) :
    ((∃ n : ℤ, m.store.level = (n : ℚ))
      ∧ 0 ≤ m.store.level ∧ m.store.level ≤ 100)
    ∧ ∀ c, m.cache = some c →
        (∃ n : ℤ, c.level = (n : ℚ)) ∧ 0 ≤ c.level ∧ c.level ≤ 100 := by
  have hOK : ModelOK m := by
    induction h with
    | boot t =>
      refine ⟨⟨⟨0, by norm_num⟩, by norm_num, by norm_num⟩, ?_⟩
      intro c hc
      injection hc with hc
      rw [← hc]
      exact ⟨⟨0, by norm_num⟩, by norm_num, by norm_num⟩
    | getStep m wf nd nr _ ih => exact modelOK_get m wf nd nr ih
    | setStep m wf body nd ns _ ih => exact modelOK_set m wf body nd ns ih
    | resetStep m wf now _ ih => exact modelOK_reset m wf now ih
  exact ⟨hOK.1, hOK.2⟩

/-- Witness for C2: the boot model, followed by one `setLevel(70)` and
one decay read, is reachable and in range. -/
theorem reachable_level_in_range_witness :
    Reachable ⟨some (⟨0, 0, 0⟩ : BoredomState), ⟨0, 0, 0⟩⟩
    ∧ (((∃ n : ℤ,
          (⟨some (⟨0, 0, 0⟩ : BoredomState), ⟨0, 0, 0⟩⟩
            : ServerModel).store.level = (n : ℚ))
        ∧ 0 ≤ (⟨some (⟨0, 0, 0⟩ : BoredomState), ⟨0, 0, 0⟩⟩
            : ServerModel).store.level
        ∧ (⟨some (⟨0, 0, 0⟩ : BoredomState), ⟨0, 0, 0⟩⟩
            : ServerModel).store.level ≤ 100)
       ∧ ∀ c, (⟨some (⟨0, 0, 0⟩ : BoredomState), ⟨0, 0, 0⟩⟩
            : ServerModel).cache = some c →
          (∃ n : ℤ, c.level = (n : ℚ)) ∧ 0 ≤ c.level ∧ c.level ≤ 100) :=
  ⟨Reachable.boot 0,
    reachable_level_in_range ⟨some ⟨0, 0, 0⟩, ⟨0, 0, 0⟩⟩ (Reachable.boot 0)⟩
